import Mathlib

/-!
Shallow embedding of the TCRS document processor core.

The embedded units are:
- PDF merge, stamping and the assembly pipeline
  (src/src/processors/pdf_processor.py);
- vertical image stacking, single-page TIFF conversion and TIFF quality
  validation (src/src/processors/tiff_converter.py);
- blob naming and SAS URL generation (src/src/storage/blob_client.py).

PDF documents are modelled as lists of abstract pages, raster images as a
size together with a pixel function, monetary amounts (floats in the
source) as rationals, and page-geometry quantities (PDF points, float in
the source) as rationals.  Fallible operations return `Except String`.
-/

namespace TCRS

/- ===== PDF merge, stamp and assembly (pdf_processor.py) ===== -/

/-- Embeds `PDFProcessor.merge_pdfs`: the writer receives every page of the
invoice PDF first, then every page of the signature (GL coding) PDF, in
their source order.  A PDF is modelled as the list of its pages. -/
def merge_pdfs {α : Type} (invoice_pdf signature_pdf : List α) : List α :=
  invoice_pdf ++ signature_pdf

/-- Embeds the page loop of `PDFProcessor.add_stamp_to_first_page`: every
page is copied to the writer in order, and only the page at index 0 first
has the stamp overlay merged into it.  `applyStamp` abstracts the content
merge `page.merge_page(stamp_reader.pages[0])`. -/
def add_stamp_to_first_page {α : Type} (applyStamp : α → α) : List α → List α
  | [] => []
  | p :: ps => applyStamp p :: ps

/-- Embeds steps 3 and 4 of `PDFProcessor.process_documents`: concatenate
invoice plus GL coding page, then stamp the first page of the result. -/
def process_documents {α : Type} (applyStamp : α → α)
    (invoice_pdf gl_coding_pdf : List α) : List α :=
  add_stamp_to_first_page applyStamp (merge_pdfs invoice_pdf gl_coding_pdf)

/- ===== Stamp placement geometry (add_stamp_to_first_page) ===== -/

/-- Which side of the page the vertical signature is placed on. -/
inductive StampSide : Type
  | left : StampSide
  | right : StampSide

/-- reportlab `letter` page width in points. -/
def letter_width : ℚ := 612

/-- reportlab `letter` page height in points. -/
def letter_height : ℚ := 792

/-- The `safe_margin = 40` constant of `add_stamp_to_first_page`. -/
def safe_margin : ℚ := 40

/-- Embeds the horizontal position choice of `add_stamp_to_first_page`:
40 points from the left edge, or 40 points from the right edge. -/
def stamp_x_position : StampSide → ℚ
  | StampSide.left => safe_margin
  | StampSide.right => letter_width - safe_margin

/-- Embeds the rotation choice of `add_stamp_to_first_page`. -/
def stamp_rotation : StampSide → ℚ
  | StampSide.left => 90
  | StampSide.right => 270

/-- Embeds the vertical start position logic of
`add_stamp_to_first_page`.  The default start is `height - 150`; when the
rendered text width makes `y_start - text_width` fall below `min_y = 50`,
the left side restarts at `min_y + text_width` and the right side restarts
at `height - 50`.  `text_width` abstracts
`c.stringWidth(signature_text, "Helvetica", 10)`. -/
def stamp_y_start (side : StampSide) (text_width : ℚ) : ℚ :=
  let y0 : ℚ := letter_height - 150
  let min_y : ℚ := 50
  match side with
  | StampSide.left => if y0 - text_width < min_y then min_y + text_width else y0
  | StampSide.right => if y0 - text_width < min_y then letter_height - 50 else y0

/- ===== GL coding page table (generate_gl_coding_page) ===== -/

/-- Embeds `GLCodingEntry` of src/src/models/request_models.py; the float
`amount` (validated `gt=0`) is embedded as a rational. -/
structure GLCodingEntry : Type where
  accountCode : String
  accountDescription : String
  facilityCode : String
  facilityDescription : String
  taxCode : String
  amount : ℚ
  equipment : Option String
  comments : Option String

/-- Python truthiness of an optional string: `None` and the empty string
are falsy. -/
def truthy : Option String → Bool
  | none => false
  | some s => s != ""

/-- Embeds the Equipment and Comments cell construction of
`generate_gl_coding_page`: the two optional fields are concatenated with
bold labels and a blank line between them, and a lone dash is used when
both are absent. -/
def combineEquipComments (equipment comments : Option String) : String :=
  let ec1 : String :=
    if truthy equipment then "<b>Equipment:</b> " ++ equipment.getD "" else ""
  let ec2 : String :=
    if truthy comments then
      (if ec1 != "" then ec1 ++ "<br/><br/>" else ec1) ++
        "<b>Comments:</b> " ++ comments.getD ""
    else ec1
  if ec2 = "" then "-" else ec2

/-- Groups a reversed digit list in blocks of three, inserting commas, as
the `,` flag of the Python format spec does. -/
def groupRev : List Char → List Char
  | d1 :: d2 :: d3 :: d4 :: rest => d1 :: d2 :: d3 :: ',' :: groupRev (d4 :: rest)
  | l => l

/-- Inserts thousands separators into a digit string. -/
def groupThousands (s : String) : String :=
  String.mk ((groupRev s.data.reverse).reverse)

/-- The value rounded to a whole number of cents.  The source rounds a
binary float with the `.2f` format spec; the embedding rounds the exact
rational to the nearest cent. -/
def cents (q : ℚ) : ℤ := Rat.floor (q * 100 + 1 / 2)

/-- Embeds the Python format expression applied to amounts in
`generate_gl_coding_page`, producing the 2-decimal, comma-grouped text of
the value. -/
def fmtFixed2 (q : ℚ) : String :=
  let c := cents q
  let sign := if c < 0 then "-" else ""
  let n := c.natAbs
  let whole := n / 100
  let frac := n % 100
  sign ++ groupThousands (toString whole) ++ "." ++
    (if frac < 10 then "0" else "") ++ toString frac

/-- The header row of the GL coding table (Paragraph markup texts). -/
def headers : List String :=
  ["Account<br/>Code", "Account<br/>Description", "Facility<br/>Code",
   "Facility<br/>Description", "Tax<br/>Code", "Amount",
   "Equipment & Comments"]

/-- Embeds one data row of the GL coding table: seven cells, the amount
cell formatted as currency. -/
def dataRow (e : GLCodingEntry) : List String :=
  [e.accountCode, e.accountDescription, e.facilityCode,
   e.facilityDescription, e.taxCode, "$" ++ fmtFixed2 e.amount,
   combineEquipComments e.equipment e.comments]

/-- Embeds the data-row loop of `generate_gl_coding_page`: rows are
appended in order while `total_amount` accumulates `entry.amount`,
starting from 0 at render time. -/
def buildRows : List GLCodingEntry → ℚ → List (List String) × ℚ
  | [], total => ([], total)
  | e :: rest, total =>
      let r := buildRows rest (total + e.amount)
      (dataRow e :: r.1, r.2)

/-- Embeds the totals row of `generate_gl_coding_page`: empty cells, a
bold TOTAL label in the tax-code column, and the accumulated amount as
bold currency in the amount column. -/
def total_row (total : ℚ) : List String :=
  ["", "", "", "", "<b>TOTAL:</b>", "<b>$" ++ fmtFixed2 total ++ "</b>", ""]

/-- Embeds the `table_data` list of `generate_gl_coding_page`: the header
row, then one row per GL entry in order, then the totals row. -/
def glTable (entries : List GLCodingEntry) : List (List String) :=
  let r := buildRows entries 0
  headers :: (r.1 ++ [total_row r.2])

/- ===== Image stacking and TIFF conversion (tiff_converter.py) ===== -/

/-- An RGB pixel value. -/
abbrev Color : Type := ℕ × ℕ × ℕ

/-- The white fill used for the new canvas in
`combine_images_vertically`. -/
def white : Color := (255, 255, 255)

/-- A rasterized page image: pixel dimensions plus a pixel lookup
function, embedding a PIL RGB image. -/
structure Img : Type where
  width : ℕ
  height : ℕ
  pix : ℕ → ℕ → Color

/-- Embeds `Image.paste(img, (x0, y0))` on a pixel function: inside the
pasted rectangle the pasted image wins, elsewhere the base shows
through. -/
def pasteAt (base : ℕ → ℕ → Color) (img : Img) (x0 y0 : ℕ) :
    ℕ → ℕ → Color :=
  fun x y =>
    if x0 ≤ x ∧ x < x0 + img.width ∧ y0 ≤ y ∧ y < y0 + img.height then
      img.pix (x - x0) (y - y0)
    else
      base x y

/-- Embeds the paste loop of `combine_images_vertically`: each image is
pasted at horizontal offset `(max_width - width) / 2` (integer division)
and at the running `y_offset`, which then advances by the image height. -/
def pasteAll (base : ℕ → ℕ → Color) (max_width y_offset : ℕ) :
    List Img → (ℕ → ℕ → Color)
  | [] => base
  | img :: rest =>
      pasteAll (pasteAt base img ((max_width - img.width) / 2) y_offset)
        max_width (y_offset + img.height) rest

/-- An axis-aligned pixel rectangle. -/
structure Rect : Type where
  x0 : ℕ
  y0 : ℕ
  w : ℕ
  h : ℕ

/-- Membership of a pixel coordinate in a rectangle. -/
def Rect.containsPt (r : Rect) (x y : ℕ) : Prop :=
  r.x0 ≤ x ∧ x < r.x0 + r.w ∧ r.y0 ≤ y ∧ y < r.y0 + r.h

instance (r : Rect) (x y : ℕ) : Decidable (r.containsPt x y) := by
  unfold Rect.containsPt; infer_instance

/-- The rectangles covered by the paste loop of
`combine_images_vertically`, in paste order. -/
def offsetRects (max_width y_offset : ℕ) : List Img → List Rect
  | [] => []
  | img :: rest =>
      ⟨(max_width - img.width) / 2, y_offset, img.width, img.height⟩ ::
        offsetRects max_width (y_offset + img.height) rest

/-- The maximum of a list of widths as Python computes `max(widths)` on a
nonempty sequence; on the empty list (never reached behind the guard) it
is 0. -/
def list_max : List ℕ → ℕ
  | [] => 0
  | w :: ws => ws.foldl max w

/-- The image built by the guarded body of `combine_images_vertically`:
a white `max_width` by `total_height` canvas with every page pasted at
its centered horizontal offset and running vertical offset. -/
def combined_image (images : List Img) : Img :=
  let total_height := (images.map Img.height).sum
  let max_width := list_max (images.map Img.width)
  ⟨max_width, total_height, pasteAll (fun _ _ => white) max_width 0 images⟩

/-- Embeds `TIFFConverter.combine_images_vertically`: an empty sequence
raises `ValueError("No images to combine")`; otherwise the stacked
composite image is produced. -/
def combine_images_vertically (images : List Img) : Except String Img :=
  if images.isEmpty then Except.error "No images to combine"
  else Except.ok (combined_image images)

/-- The try-block body of `TIFFConverter.images_to_singlepage_tiff`: the
empty-input `ValueError("No images provided for TIFF conversion")`, then
stacking, then encoding.  `encode` abstracts `combined.save(...)` with the
configured compression, quality and DPI. -/
def tiff_body {β : Type} (encode : Img → β) (images : List Img) :
    Except String β :=
  if images.isEmpty then
    Except.error "No images provided for TIFF conversion"
  else
    match combine_images_vertically images with
    | Except.ok combined => Except.ok (encode combined)
    | Except.error e => Except.error e

/-- Embeds `TIFFConverter.images_to_singlepage_tiff` with its broad
`except` clause: any failure in the body is re-raised with the stage
message prepended. -/
def images_to_singlepage_tiff {β : Type} (encode : Img → β)
    (images : List Img) : Except String β :=
  match tiff_body encode images with
  | Except.ok t => Except.ok t
  | Except.error e =>
      Except.error ("Failed to create single-page TIFF: " ++ e)

/-- The `max_image_width = 2000` cap set in the `TIFFConverter`
constructor. -/
def max_image_width : ℕ := 2000

/-- Embeds the oversized-page branch of `TIFFConverter.pdf_to_images`:
when the rendered width exceeds the cap, resize to the cap with the
height scaled by the same ratio (the source computes
`int(height * (cap / width))` on floats; the embedding takes the floor of
the exact rational, which is what the truncation computes up to float
rounding).  Pages at or below the cap keep their rendered size. -/
def resize_page (w h : ℕ) : ℕ × ℕ :=
  if max_image_width < w then (max_image_width, h * max_image_width / w)
  else (w, h)

/- ===== TIFF quality validation (validate_tiff_quality) ===== -/

/-- What `Image.open` reports about a decoded archive: the container
format tag, the color mode, and the frame count when the container
carries one. -/
structure DecodedImage : Type where
  format : String
  mode : String
  nFrames : Option ℕ

/-- Embeds `TIFFConverter.validate_tiff_quality`.  The argument is the
outcome of `Image.open` on the archive bytes: `none` when decoding raised
(the broad except clause returns `False`), otherwise the decoded header
data.  The format check, then the mode check, must both pass; the frame
count and compression lookups only log. -/
def validate_tiff_quality (decoded : Option DecodedImage) : Bool :=
  match decoded with
  | none => false
  | some img =>
      if img.format ≠ "TIFF" then false
      else if img.mode ≠ "RGB" then false
      else true

/- ===== Stage error wrapping (pdf_processor.py except clauses) ===== -/

/-- Embeds the broad except clause shared by the pipeline stages: a
successful result passes through, a failure is re-raised as
`Exception(stage_message + ": " + str(e))`. -/
def wrap_stage {α : Type} (stage_message : String) (r : Except String α) :
    Except String α :=
  match r with
  | Except.ok a => Except.ok a
  | Except.error e => Except.error (stage_message ++ ": " ++ e)

/-- The except clause of `PDFProcessor.generate_gl_coding_page`. -/
def generate_gl_coding_page_result {α : Type} (r : Except String α) :
    Except String α :=
  wrap_stage "Failed to generate GL coding page" r

/-- The except clause of `PDFProcessor.add_stamp_to_first_page`. -/
def add_stamp_result {α : Type} (r : Except String α) : Except String α :=
  wrap_stage "Failed to add stamp to PDF" r

/-- The except clause of `PDFProcessor.merge_pdfs`. -/
def merge_pdfs_result {α : Type} (r : Except String α) : Except String α :=
  wrap_stage "Failed to merge PDFs" r

/- ===== Blob naming and SAS URLs (blob_client.py) ===== -/

/-- The consolidated PDF file name of
`BlobStorageClient.generate_blob_name`. -/
def consolidated_file_name (request_id timestamp : String) : String :=
  request_id ++ "_consolidated_" ++ timestamp ++ ".pdf"

/-- The TIFF file name of `BlobStorageClient.generate_blob_name`. -/
def tiff_file_name (request_id timestamp : String) : String :=
  request_id ++ "_document_" ++ timestamp ++ ".tiff"

/-- The folder handling of `BlobStorageClient.generate_blob_name`: a
nonempty folder without a trailing slash gets one appended, and the file
name is prefixed with the folder exactly when the folder is nonempty. -/
def with_folder (folder file_name : String) : String :=
  let f := if folder != "" && !(folder.endsWith "/") then folder ++ "/"
           else folder
  if f != "" then f ++ file_name else file_name

/-- Embeds `BlobStorageClient.generate_blob_name`: the two known file
types produce the mandated names, anything else raises `ValueError`. -/
def generate_blob_name (request_id file_type timestamp folder : String) :
    Except String String :=
  if file_type = "consolidated_pdf" then
    Except.ok (with_folder folder (consolidated_file_name request_id timestamp))
  else if file_type = "tiff_image" then
    Except.ok (with_folder folder (tiff_file_name request_id timestamp))
  else
    Except.error ("Unknown file type: " ++ file_type)

/-- The plain (unsigned) blob URL built by
`BlobStorageClient.generate_sas_url`. -/
def blob_base_url (account container blob_name : String) : String :=
  "https://" ++ account ++ ".blob.core.windows.net/" ++ container ++ "/" ++
    blob_name

/-- Embeds `BlobStorageClient.generate_sas_url`.  The argument
`sas_token_result` is the outcome of `generate_blob_sas`: on success the
token is appended after a question mark; on any failure the broad except
clause returns the plain blob URL instead of raising. -/
def generate_sas_url (account container blob_name : String)
    (sas_token_result : Except String String) : String :=
  match sas_token_result with
  | Except.ok tok => blob_base_url account container blob_name ++ "?" ++ tok
  | Except.error _ => blob_base_url account container blob_name

/- ===== Sample data used by concrete witnesses ===== -/

/-- A small sample page image, 2 by 1 pixels. -/
def sampleImgA : Img :=
  ⟨2, 1, fun _ _ => (10, 20, 30)⟩

/-- A second sample page image, 4 by 2 pixels. -/
def sampleImgB : Img :=
  ⟨4, 2, fun _ _ => (40, 50, 60)⟩

/- ===== Theorems ===== -/

/-- Claim C1: for a source invoice with at least one page and a ledger
addendum with at least one page, the assembled document (merge then
stamp) has exactly N plus M pages, ordered as the invoice pages in source
order followed by the addendum pages in source order; the stamping step
only merges content into the first page and never changes the order. -/
theorem assembly_page_count_and_order {α : Type} (applyStamp : α → α)
    (p : α) (ps : List α) (q : α) (qs : List α) :
    (process_documents applyStamp (p :: ps) (q :: qs)).length
        = (p :: ps).length + (q :: qs).length ∧
    process_documents applyStamp (p :: ps) (q :: qs)
        = applyStamp p :: (ps ++ (q :: qs)) := by
  constructor
  · simp only [process_documents, merge_pdfs, add_stamp_to_first_page,
      List.cons_append, List.length_cons, List.length_append]
    omega
  · simp [process_documents, merge_pdfs, add_stamp_to_first_page]

/-- Claim C4, counterexample: for a signature whose rendered width is 800
points, the left-side start position chosen by the stamper is 850, which
is outside the band from the safety margin (40) to page height minus the
safety margin (752). -/
theorem stamp_y_start_out_of_bounds :
    stamp_y_start StampSide.left 800 = 850 ∧
    ¬ (safe_margin ≤ stamp_y_start StampSide.left 800 ∧
       stamp_y_start StampSide.left 800 ≤ letter_height - safe_margin) := by
  constructor
  · norm_num [stamp_y_start, letter_height]
  · norm_num [stamp_y_start, letter_height, safe_margin]

/-- Claim C4 amended: for either side, whenever the rendered text width
is nonnegative and at most page height minus the bottom minimum (50)
minus the safety margin (40), that is at most 702 points, the chosen
start position lies within the safety band and the whole rotated string,
from start minus text width through start, stays within it; for wider
text the code leaves the band, as the counterexample shows. -/
theorem stamp_y_start_bounds (side : StampSide) (tw : ℚ)
    (h0 : 0 ≤ tw) (h1 : tw ≤ letter_height - 50 - safe_margin) :
    safe_margin ≤ stamp_y_start side tw - tw ∧
    safe_margin ≤ stamp_y_start side tw ∧
    stamp_y_start side tw ≤ letter_height - safe_margin := by
  simp only [letter_height, safe_margin] at h1
  cases side <;>
    simp only [stamp_y_start, letter_height, safe_margin] <;>
    split_ifs with h <;>
    refine ⟨by linarith, by linarith, by linarith⟩

/-- Claim C4 amended, witness at text width 100 on the right side. -/
theorem stamp_y_start_bounds_witness :
    (0 : ℚ) ≤ 100 ∧ (100 : ℚ) ≤ letter_height - 50 - safe_margin ∧
    (safe_margin ≤ stamp_y_start StampSide.right 100 - 100 ∧
     safe_margin ≤ stamp_y_start StampSide.right 100 ∧
     stamp_y_start StampSide.right 100 ≤ letter_height - safe_margin) :=
  ⟨by norm_num,
   by norm_num [letter_height, safe_margin],
   stamp_y_start_bounds StampSide.right 100 (by norm_num)
     (by norm_num [letter_height, safe_margin])⟩

/-- Claim C5: a rendered page wider than the 2000 pixel cap is downscaled
so its width equals the cap exactly and its height is the original height
times cap over original width, with the aspect ratio preserved up to the
integer rounding of the height; a page at or below the cap keeps its
rendered size. -/
theorem resize_page_spec (w h : ℕ) :
    (max_image_width < w →
      (resize_page w h).1 = max_image_width ∧
      (resize_page w h).2 = h * max_image_width / w ∧
      (resize_page w h).2 * w ≤ h * max_image_width ∧
      h * max_image_width < ((resize_page w h).2 + 1) * w) ∧
    (w ≤ max_image_width → resize_page w h = (w, h)) := by
  constructor
  · intro hw
    have hpos : 0 < w := lt_trans (by norm_num [max_image_width]) hw
    have h1 : (resize_page w h).1 = max_image_width := by
      simp [resize_page, if_pos hw]
    have h2 : (resize_page w h).2 = h * max_image_width / w := by
      simp [resize_page, if_pos hw]
    refine ⟨h1, h2, ?_, ?_⟩
    · rw [h2]
      exact Nat.div_mul_le_self _ _
    · rw [h2]
      have hdm : w * (h * max_image_width / w) + h * max_image_width % w
          = h * max_image_width := Nat.div_add_mod _ _
      have hml : h * max_image_width % w < w := Nat.mod_lt _ hpos
      have hmul : (h * max_image_width / w + 1) * w
          = w * (h * max_image_width / w) + w := by ring
      linarith
  · intro hw
    simp [resize_page, if_neg (not_lt.mpr hw)]

/-- Claim C5, witness: a 3000 by 1500 page is downscaled to 2000 wide,
and a 1600 by 900 page is untouched. -/
theorem resize_page_spec_witness :
    (max_image_width < 3000 ∧
      ((resize_page 3000 1500).1 = max_image_width ∧
       (resize_page 3000 1500).2 = 1500 * max_image_width / 3000 ∧
       (resize_page 3000 1500).2 * 3000 ≤ 1500 * max_image_width ∧
       1500 * max_image_width < ((resize_page 3000 1500).2 + 1) * 3000)) ∧
    (1600 ≤ max_image_width ∧ resize_page 1600 900 = (1600, 900)) :=
  ⟨⟨by decide, (resize_page_spec 3000 1500).1 (by decide)⟩,
   ⟨by decide, (resize_page_spec 1600 900).2 (by decide)⟩⟩

/-- Claim C6: the stacking step and the single-page TIFF conversion both
fail on an empty image sequence with a no-images error, never returning a
degenerate zero-size image or archive; the conversion error carries the
no-images diagnostic behind its stage text. -/
theorem empty_images_rejected {β : Type} (encode : Img → β) :
    combine_images_vertically [] = Except.error "No images to combine" ∧
    images_to_singlepage_tiff encode []
      = Except.error
          ("Failed to create single-page TIFF: " ++
            "No images provided for TIFF conversion") := by
  constructor
  · rfl
  · rfl

/-- Claim C7: the TIFF quality validator is a total boolean function of
the decode outcome; it returns true exactly when decoding succeeded with
container format tag TIFF and color mode RGB, and a failed decode or any
failed check yields false. -/
theorem validate_tiff_quality_iff (decoded : Option DecodedImage) :
    validate_tiff_quality decoded = true ↔
      ∃ img : DecodedImage, decoded = some img ∧
        img.format = "TIFF" ∧ img.mode = "RGB" := by
  cases decoded with
  | none => simp [validate_tiff_quality]
  | some img =>
      by_cases hf : img.format = "TIFF" <;> by_cases hm : img.mode = "RGB" <;>
        simp [validate_tiff_quality, hf, hm]

/-- Claim C8, counterexample: when the underlying ledger-page renderer
fails with diagnostic text boom, the re-raised stage error message ends
with that diagnostic, so the underlying library text does appear in the
stage error message. -/
theorem stage_error_includes_diagnostic :
    generate_gl_coding_page_result (Except.error "boom" : Except String Unit)
      = Except.error "Failed to generate GL coding page: boom" ∧
    List.isSuffixOf ("boom".data)
      ("Failed to generate GL coding page: boom".data) = true := by
  constructor
  · exact congrArg Except.error (by decide)
  · decide

/-- Claim C8 amended: each failing stage re-raises exactly one
stage-specific error whose message is the fixed stage text followed by
the underlying diagnostic text (the diagnostic is appended, not hidden),
and a failing stage never returns partial output; successful results
pass through unchanged. -/
theorem stage_error_wrapping {α : Type} (e : String) (a : α) :
    generate_gl_coding_page_result (Except.error e : Except String α)
      = Except.error ("Failed to generate GL coding page" ++ ": " ++ e) ∧
    add_stamp_result (Except.error e : Except String α)
      = Except.error ("Failed to add stamp to PDF" ++ ": " ++ e) ∧
    merge_pdfs_result (Except.error e : Except String α)
      = Except.error ("Failed to merge PDFs" ++ ": " ++ e) ∧
    generate_gl_coding_page_result (Except.ok a : Except String α)
      = Except.ok a ∧
    add_stamp_result (Except.ok a : Except String α) = Except.ok a ∧
    merge_pdfs_result (Except.ok a : Except String α) = Except.ok a :=
  ⟨rfl, rfl, rfl, rfl, rfl, rfl⟩

/-- Appending a slash leaves a string nonempty. -/
theorem append_slash_ne_empty (s : String) : ¬ (s ++ "/" = "") := by
  intro h
  have h2 := congrArg String.data h
  simp [String.data_append] at h2

/-- Claim C9: the generated blob names follow the mandated convention;
the folder, given a trailing slash when it lacks one, is prepended
exactly when the folder is nonempty, and an empty folder gives no
prefixing. -/
theorem generate_blob_name_spec (request_id timestamp folder : String) :
    (folder = "" →
      generate_blob_name request_id "consolidated_pdf" timestamp folder
        = Except.ok (consolidated_file_name request_id timestamp) ∧
      generate_blob_name request_id "tiff_image" timestamp folder
        = Except.ok (tiff_file_name request_id timestamp)) ∧
    (folder ≠ "" →
      generate_blob_name request_id "consolidated_pdf" timestamp folder
        = Except.ok
            ((if folder.endsWith "/" then folder else folder ++ "/") ++
              consolidated_file_name request_id timestamp) ∧
      generate_blob_name request_id "tiff_image" timestamp folder
        = Except.ok
            ((if folder.endsWith "/" then folder else folder ++ "/") ++
              tiff_file_name request_id timestamp)) := by
  constructor
  · intro hf
    subst hf
    exact ⟨rfl, rfl⟩
  · intro hf
    have hb : (folder != "") = true := by
      simpa [bne_iff_ne] using hf
    by_cases hslash : folder.endsWith "/"
    · constructor <;>
        simp [generate_blob_name, with_folder, hb, hslash]
    · have hne := append_slash_ne_empty folder
      constructor <;>
        simp [generate_blob_name, with_folder, hb, hslash, hne]

/-- Claim C9, witness with a 12-digit request id, a timestamp, an empty
folder and a folder without a trailing slash. -/
theorem generate_blob_name_spec_witness :
    (generate_blob_name "123456789012" "consolidated_pdf" "20240101" ""
        = Except.ok (consolidated_file_name "123456789012" "20240101") ∧
     generate_blob_name "123456789012" "tiff_image" "20240101" ""
        = Except.ok (tiff_file_name "123456789012" "20240101")) ∧
    ("invoices" : String) ≠ "" ∧
    (generate_blob_name "123456789012" "consolidated_pdf" "20240101"
          "invoices"
        = Except.ok
            ((if ("invoices" : String).endsWith "/" then ("invoices" : String)
              else "invoices" ++ "/") ++
              consolidated_file_name "123456789012" "20240101") ∧
     generate_blob_name "123456789012" "tiff_image" "20240101" "invoices"
        = Except.ok
            ((if ("invoices" : String).endsWith "/" then ("invoices" : String)
              else "invoices" ++ "/") ++
              tiff_file_name "123456789012" "20240101")) :=
  ⟨(generate_blob_name_spec "123456789012" "20240101" "").1 rfl,
   by decide,
   (generate_blob_name_spec "123456789012" "20240101" "invoices").2
     (by decide)⟩

/-- The accumulator of the data-row loop: the final total is the
starting value plus the sum of the entry amounts, in order. -/
theorem buildRows_total (entries : List GLCodingEntry) (t : ℚ) :
    (buildRows entries t).2 = t + (entries.map GLCodingEntry.amount).sum := by
  induction entries generalizing t with
  | nil => simp [buildRows]
  | cons e rest ih => simp [buildRows, ih, add_assoc]

/-- Claim C3: for a nonempty entry list the last row of the rendered GL
coding table is the totals row carrying the arithmetic sum of all entry
amounts, accumulated from zero at render time, and its amount cell shows
that sum formatted as 2-decimal currency. -/
theorem gl_totals_row_spec (e0 : GLCodingEntry) (es : List GLCodingEntry) :
    (glTable (e0 :: es)).getLast?
      = some (total_row (((e0 :: es).map GLCodingEntry.amount).sum)) ∧
    (total_row (((e0 :: es).map GLCodingEntry.amount).sum)).get? 5
      = some ("<b>$" ++
          fmtFixed2 (((e0 :: es).map GLCodingEntry.amount).sum) ++
          "</b>") := by
  constructor
  · have h := buildRows_total (e0 :: es) 0
    rw [zero_add] at h
    simp only [glTable]
    rw [show TCRS.headers ::
          ((buildRows (e0 :: es) 0).1 ++ [total_row (buildRows (e0 :: es) 0).2])
        = (TCRS.headers :: (buildRows (e0 :: es) 0).1) ++
            [total_row (buildRows (e0 :: es) 0).2] from rfl]
    rw [List.getLast?_concat, h]
  · rfl

/-- The initial accumulator never exceeds a left fold of max. -/
theorem foldl_max_init_le (ws : List ℕ) (acc : ℕ) :
    acc ≤ ws.foldl max acc := by
  induction ws generalizing acc with
  | nil => exact le_refl _
  | cons w ws ih =>
      exact le_trans (le_max_left acc w) (ih (max acc w))

/-- Every member of the list is bounded by a left fold of max. -/
theorem mem_le_foldl_max (ws : List ℕ) (acc a : ℕ) (ha : a ∈ ws) :
    a ≤ ws.foldl max acc := by
  induction ws generalizing acc with
  | nil => cases ha
  | cons w ws ih =>
      simp only [List.foldl]
      rcases List.mem_cons.mp ha with h | h
      · subst h
        exact le_trans (le_max_right acc a) (foldl_max_init_le ws _)
      · exact ih _ h

/-- A left fold of max is the accumulator or one of the elements. -/
theorem foldl_max_mem (ws : List ℕ) (acc : ℕ) :
    ws.foldl max acc = acc ∨ ws.foldl max acc ∈ ws := by
  induction ws generalizing acc with
  | nil => exact Or.inl rfl
  | cons w ws ih =>
      simp only [List.foldl]
      rcases ih (max acc w) with h | h
      · rcases Nat.le_total acc w with hle | hle
        · refine Or.inr ?_
          rw [h, max_eq_right hle]
          exact List.mem_cons_self _ _
        · exact Or.inl (by rw [h, max_eq_left hle])
      · exact Or.inr (List.mem_cons_of_mem _ h)

/-- Every member of a list of widths is at most its maximum. -/
theorem le_list_max (l : List ℕ) (a : ℕ) (ha : a ∈ l) : a ≤ list_max l := by
  cases l with
  | nil => cases ha
  | cons w ws =>
      simp only [list_max]
      rcases List.mem_cons.mp ha with h | h
      · subst h
        exact foldl_max_init_le ws a
      · exact mem_le_foldl_max ws w a h

/-- The maximum of a nonempty list of widths is attained. -/
theorem list_max_mem (w : ℕ) (ws : List ℕ) : list_max (w :: ws) ∈ w :: ws := by
  simp only [list_max]
  rcases foldl_max_mem ws w with h | h
  · rw [h]
    exact List.mem_cons_self _ _
  · exact List.mem_cons_of_mem _ h

/-- Pixels strictly below the running vertical offset are untouched by
the remaining pastes of the stacking loop. -/
theorem pasteAll_below (images : List Img) (base : ℕ → ℕ → Color)
    (max_width y_offset x y : ℕ) (hy : y < y_offset) :
    pasteAll base max_width y_offset images x y = base x y := by
  induction images generalizing base y_offset with
  | nil => rfl
  | cons img rest ih =>
      have h1 : y < y_offset + img.height :=
        lt_of_lt_of_le hy (Nat.le_add_right _ _)
      simp only [pasteAll]
      rw [ih _ _ h1]
      have hcond : ¬ ((max_width - img.width) / 2 ≤ x ∧
          x < (max_width - img.width) / 2 + img.width ∧
          y_offset ≤ y ∧ y < y_offset + img.height) := by
        rintro ⟨-, -, hle, -⟩
        exact absurd hle (Nat.not_le.mpr hy)
      rw [pasteAt, if_neg hcond]

/-- The pixel content of the page at index i after the stacking loop:
inside its pasted rectangle (centered horizontal offset, vertical offset
the sum of the earlier page heights) the page pixels show through. -/
theorem pasteAll_page (images : List Img) (base : ℕ → ℕ → Color)
    (max_width y_offset : ℕ) (i : ℕ) (im : Img) (u v : ℕ)
    (hi : images.get? i = some im) (hu : u < im.width) (hv : v < im.height) :
    pasteAll base max_width y_offset images
        ((max_width - im.width) / 2 + u)
        (y_offset + ((images.take i).map Img.height).sum + v)
      = im.pix u v := by
  induction images generalizing base y_offset i with
  | nil => simp at hi
  | cons img rest ih =>
      cases i with
      | zero =>
          have him : img = im := by
            simpa using hi
          subst him
          simp only [List.take_zero, List.map_nil, List.sum_nil, Nat.add_zero]
          simp only [pasteAll]
          rw [pasteAll_below _ _ _ _ _ _ (by omega)]
          have hcond : (max_width - img.width) / 2 ≤
                (max_width - img.width) / 2 + u ∧
              (max_width - img.width) / 2 + u <
                (max_width - img.width) / 2 + img.width ∧
              y_offset ≤ y_offset + v ∧
              y_offset + v < y_offset + img.height := by
            refine ⟨Nat.le_add_right _ _, by omega, Nat.le_add_right _ _,
              by omega⟩
          rw [pasteAt, if_pos hcond]
          have hx : (max_width - img.width) / 2 + u -
              (max_width - img.width) / 2 = u := by omega
          have hy : y_offset + v - y_offset = v := by omega
          rw [hx, hy]
      | succ j =>
          have hj : rest.get? j = some im := by
            simpa using hi
          have hco : y_offset +
                (((img :: rest).take (j + 1)).map Img.height).sum + v
              = (y_offset + img.height) +
                  ((rest.take j).map Img.height).sum + v := by
            simp [List.take_succ_cons, add_assoc]
          rw [hco]
          simp only [pasteAll]
          exact ih _ _ _ hj

/-- A pixel outside every pasted rectangle keeps the base value. -/
theorem pasteAll_uncovered (images : List Img) (base : ℕ → ℕ → Color)
    (max_width y_offset x y : ℕ)
    (h : ∀ r ∈ offsetRects max_width y_offset images, ¬ r.containsPt x y) :
    pasteAll base max_width y_offset images x y = base x y := by
  induction images generalizing base y_offset with
  | nil => rfl
  | cons img rest ih =>
      simp only [offsetRects, List.mem_cons] at h
      have hhead : ¬ (Rect.containsPt
          ⟨(max_width - img.width) / 2, y_offset, img.width, img.height⟩
          x y) :=
        h _ (Or.inl rfl)
      have htail : ∀ r ∈ offsetRects max_width (y_offset + img.height) rest,
          ¬ r.containsPt x y :=
        fun r hr => h r (Or.inr hr)
      have hhead2 : ¬ ((max_width - img.width) / 2 ≤ x ∧
          x < (max_width - img.width) / 2 + img.width ∧
          y_offset ≤ y ∧ y < y_offset + img.height) := hhead
      simp only [pasteAll]
      rw [ih _ _ htail, pasteAt, if_neg hhead2]

/-- Claim C2: for a nonempty page-image sequence the stacked composite
has height the sum of the page heights and width the maximum of the page
widths; the page at index i is pasted, in input order, at vertical
offset the sum of the heights of the earlier pages and horizontal offset
(max width minus page width) over 2; and every pixel outside all pasted
rectangles is solid white. -/
theorem combine_images_vertically_spec (img0 : Img) (rest : List Img) :
    combine_images_vertically (img0 :: rest)
        = Except.ok (combined_image (img0 :: rest)) ∧
    (combined_image (img0 :: rest)).height
        = ((img0 :: rest).map Img.height).sum ∧
    (∀ im ∈ img0 :: rest, im.width ≤ (combined_image (img0 :: rest)).width) ∧
    (∃ im ∈ img0 :: rest, im.width = (combined_image (img0 :: rest)).width) ∧
    (∀ i im u v, (img0 :: rest).get? i = some im →
      u < im.width → v < im.height →
      (combined_image (img0 :: rest)).pix
          (((combined_image (img0 :: rest)).width - im.width) / 2 + u)
          ((((img0 :: rest).take i).map Img.height).sum + v)
        = im.pix u v) ∧
    (∀ x y,
      (∀ r ∈ offsetRects (combined_image (img0 :: rest)).width 0
          (img0 :: rest), ¬ r.containsPt x y) →
      (combined_image (img0 :: rest)).pix x y = white) := by
  refine ⟨rfl, rfl, ?_, ?_, ?_, ?_⟩
  · intro im him
    exact le_list_max _ _ (List.mem_map_of_mem Img.width him)
  · have hmem : list_max ((img0 :: rest).map Img.width) ∈
        (img0 :: rest).map Img.width := by
      simpa using list_max_mem img0.width (rest.map Img.width)
    rcases List.mem_map.mp hmem with ⟨im, him, heq⟩
    exact ⟨im, him, heq⟩
  · intro i im u v hi hu hv
    have h := pasteAll_page (img0 :: rest) (fun _ _ => white)
      (list_max ((img0 :: rest).map Img.width)) 0 i im u v hi hu hv
    simpa [combined_image] using h
  · intro x y hxy
    exact pasteAll_uncovered (img0 :: rest) (fun _ _ => white)
      (list_max ((img0 :: rest).map Img.width)) 0 x y hxy

/-- Claim C2, witness on two concrete pages, 2 by 1 and 4 by 2: the
composite is 4 wide and 3 tall, page 1 is pasted at vertical offset 1
and horizontal offset 0, and pixel (3, 0), outside both rectangles, is
white. -/
theorem combine_images_vertically_spec_witness :
    ([sampleImgA, sampleImgB].get? 1 = some sampleImgB ∧
      0 < sampleImgB.width ∧ 0 < sampleImgB.height) ∧
    (combined_image [sampleImgA, sampleImgB]).pix
        (((combined_image [sampleImgA, sampleImgB]).width -
            sampleImgB.width) / 2 + 0)
        ((([sampleImgA, sampleImgB].take 1).map Img.height).sum + 0)
      = sampleImgB.pix 0 0 ∧
    (∀ r ∈ offsetRects (combined_image [sampleImgA, sampleImgB]).width 0
        [sampleImgA, sampleImgB], ¬ r.containsPt 3 0) ∧
    (combined_image [sampleImgA, sampleImgB]).pix 3 0 = white := by
  refine ⟨⟨rfl, by decide, by decide⟩, ?_, by decide, ?_⟩
  · exact (combine_images_vertically_spec sampleImgA [sampleImgB]).2.2.2.2.1
      1 sampleImgB 0 0 rfl (by decide) (by decide)
  · exact (combine_images_vertically_spec sampleImgA [sampleImgB]).2.2.2.2.2
      3 0 (by decide)

/-- Claim C10: SAS URL generation is a total function of the token
outcome; when token generation fails for any reason it returns the plain
unsigned blob URL, and on success the token is appended after a question
mark. -/
theorem generate_sas_url_fallback (account container blob_name e : String) :
    generate_sas_url account container blob_name (Except.error e)
      = "https://" ++ account ++ ".blob.core.windows.net/" ++ container ++
          "/" ++ blob_name ∧
    (∀ tok : String,
      generate_sas_url account container blob_name (Except.ok tok)
        = blob_base_url account container blob_name ++ "?" ++ tok) :=
  ⟨rfl, fun _ => rfl⟩

end TCRS
